import Mathlib

/-!
# Verification development for the blog example programs

Shallow embeddings of the standalone example programs

* `content/posts/2022/08/hdf5/hdf5-example.c`
* `content/posts/2023/02/benchmarking/monte_carlo.cpp`
* `content/posts/2023/02/benchmarking/simple_micro.cpp`
* `static/code/2021/09/conditional-vs-fabs.c`

and the properties stated about them.

Conventions.  Floating-point values are modelled by the exact rational number
they denote; a floating-point operation is the exact operation followed by
IEEE-754 round-to-nearest-even at the precision of the type.  Calls into
external libraries (HDF5, the C++ stream library, the clock and the random
number generator) are interactions with an environment: a program is embedded
as the sequence of calls it makes, each continuation receiving the value the
call returned.
-/

namespace Blog

/-! ## IEEE-754 rounding on exact values -/

/-- Round a rational to the nearest integer, ties going to the even integer. -/
def roundNE (x : ℚ) : ℤ :=
  if x - ⌊x⌋ < 1 / 2 then ⌊x⌋
  else if 1 / 2 < x - ⌊x⌋ then ⌊x⌋ + 1
  else if ⌊x⌋ % 2 = 0 then ⌊x⌋ else ⌊x⌋ + 1

/-- Exponent of the spacing of the floating-point grid around `q` for a binary
format with `p` significand bits and least normal exponent `emin`: the numbers
of the format near `q` are the integer multiples of `2 ^ quantumExp p emin q`.
Below the normal range the spacing stays that of the subnormal numbers. -/
def quantumExp (p : ℕ) (emin : ℤ) (q : ℚ) : ℤ :=
  max (Int.log 2 |q| - (p - 1)) (emin - (p - 1))

/-- Round-to-nearest-even into a binary floating-point format with `p`
significand bits and least normal exponent `emin`.  The result is the exact
value of the nearest number of the format.  Overflow to infinity is not
represented: every value the embedded programs compute has magnitude at most
`4 * 10 ^ 7`, far inside the finite range of both formats used. -/
def roundBinary (p : ℕ) (emin : ℤ) (q : ℚ) : ℚ :=
  if q = 0 then 0
  else roundNE (q / 2 ^ quantumExp p emin q) * 2 ^ quantumExp p emin q

/-- Conversion to C `float` (IEEE-754 binary32). -/
def binary32 (q : ℚ) : ℚ := roundBinary 24 (-126) q

/-- Conversion to C `double` (IEEE-754 binary64). -/
def binary64 (q : ℚ) : ℚ := roundBinary 53 (-1022) q

/-! ## `hdf5-example.c`: the program as a sequence of library calls -/

namespace Hdf5

/-- HDF5 identifiers (`hid_t`).  The three library-defined identifiers the
program mentions are kept symbolic, since `hdf5.h` fixes their values only at
run time; `val n` is a value returned from a library call (negative values
are the library's failure indication). -/
inductive hid_t where
  | H5P_DEFAULT
  | H5T_NATIVE_FLOAT
  | H5T_C_S1
  | val (n : ℤ)
deriving DecidableEq, Repr

/-- File creation flags (only the one the program uses). -/
inductive H5F_flags where
  | H5F_ACC_TRUNC
deriving DecidableEq, Repr

/-- Dataspace classes of `H5Screate` (only the one the program uses). -/
inductive H5S_class_t where
  | H5S_SCALAR
deriving DecidableEq, Repr

/-- A memory buffer handed to the library by pointer: an array of `float`
(each element given by its exact value) or an array of `char`. -/
inductive Buf where
  | floats (xs : List ℚ)
  | chars (cs : List Char)
deriving DecidableEq, Repr

/-- Size in bytes of a buffer (`sizeof`): four bytes for each `float`, one for each `char`. -/
def Buf.sizeof : Buf → ℕ
  | .floats xs => 4 * xs.length
  | .chars cs => cs.length

/-- The HDF5 library calls made by the program, with their arguments. -/
inductive Call where
  | H5Fcreate (name : String) (flags : H5F_flags) (fcpl fapl : hid_t)
  | H5Gcreate (loc : hid_t) (name : String) (lcpl gcpl gapl : hid_t)
  | H5Screate_simple (rank : ℤ) (dims maxdims : List ℕ)
  | H5Dcreate (loc : hid_t) (name : String) (type space lcpl dcpl dapl : hid_t)
  | H5Dwrite (dset memtype memspace filespace dxpl : hid_t) (buf : Buf)
  | H5Screate (cls : H5S_class_t)
  | H5Tcopy (type : hid_t)
  | H5Tset_size (type : hid_t) (size : ℕ)
  | H5Acreate (loc : hid_t) (name : String) (type space acpl aapl : hid_t)
  | H5Awrite (attr memtype : hid_t) (buf : Buf)
  | H5Tclose (id : hid_t)
  | H5Dclose (id : hid_t)
  | H5Aclose (id : hid_t)
  | H5Sclose (id : hid_t)
  | H5Gclose (id : hid_t)
  | H5Fclose (id : hid_t)
deriving DecidableEq, Repr

/-- Function name of a call. -/
def Call.name : Call → String
  | .H5Fcreate .. => "H5Fcreate"
  | .H5Gcreate .. => "H5Gcreate"
  | .H5Screate_simple .. => "H5Screate_simple"
  | .H5Dcreate .. => "H5Dcreate"
  | .H5Dwrite .. => "H5Dwrite"
  | .H5Screate .. => "H5Screate"
  | .H5Tcopy .. => "H5Tcopy"
  | .H5Tset_size .. => "H5Tset_size"
  | .H5Acreate .. => "H5Acreate"
  | .H5Awrite .. => "H5Awrite"
  | .H5Tclose .. => "H5Tclose"
  | .H5Dclose .. => "H5Dclose"
  | .H5Aclose .. => "H5Aclose"
  | .H5Sclose .. => "H5Sclose"
  | .H5Gclose .. => "H5Gclose"
  | .H5Fclose .. => "H5Fclose"

/-- A program over the library: it either returns from `main` with an exit
code, or makes a call and continues with the value the call returned. -/
inductive Prog where
  | ret (code : ℤ)
  | call (c : Call) (k : ℤ → Prog)

/-- The initialiser of `important_numbers` as written in the source. -/
def important_numbers_literal : List (List ℚ) :=
  [[42, 42, 42],
   [42, 42, 42],
   [42, 42, 42.42]]

/-- The object `float important_numbers[3][3]`: the integer constants are
converted to `float`, the constant `42.42` is a `double` constant converted to
`float`. -/
def important_numbers : List (List ℚ) :=
  [[binary32 42, binary32 42, binary32 42],
   [binary32 42, binary32 42, binary32 42],
   [binary32 42, binary32 42, binary32 (binary64 42.42)]]

/-- The array `hsize_t dims[2]`. -/
def dims : List ℕ := [3, 3]

/-- The pointer `max_dims` aliases `dims`. -/
def max_dims : List ℕ := dims

/-- The initialiser of `mean` as written in the source. -/
def mean_literal : ℚ := 42.05

/-- The object `float mean`: the `double` constant `42.05` converted to `float`. -/
def mean : ℚ := binary32 (binary64 42.05)

/-- The string literal initialising `content_description`. -/
def content_literal : String := "Contains a dataset with the answer to everything!"

/-- The object `char content_description[]`: the characters of the literal
followed by the terminating NUL. -/
def content_description : List Char := content_literal.toList ++ [Char.ofNat 0]

/-- The function `main` of `hdf5-example.c`.  No returned value is inspected;
identifiers are passed on as returned. -/
def main : Prog :=
  .call (.H5Fcreate "solution.h5" .H5F_ACC_TRUNC .H5P_DEFAULT .H5P_DEFAULT) fun file_id =>
  .call (.H5Gcreate (.val file_id) "important_data" .H5P_DEFAULT .H5P_DEFAULT .H5P_DEFAULT)
    fun group_id =>
  .call (.H5Screate_simple 2 dims max_dims) fun space_matrix_id =>
  .call (.H5Dcreate (.val group_id) "my_cool_data" .H5T_NATIVE_FLOAT (.val space_matrix_id)
    .H5P_DEFAULT .H5P_DEFAULT .H5P_DEFAULT) fun set_id =>
  .call (.H5Dwrite (.val set_id) .H5T_NATIVE_FLOAT (.val space_matrix_id) (.val space_matrix_id)
    .H5P_DEFAULT (.floats important_numbers.flatten)) fun _ =>
  .call (.H5Screate .H5S_SCALAR) fun space_scalar_id =>
  .call (.H5Tcopy .H5T_C_S1) fun string_type =>
  .call (.H5Tset_size (.val string_type) (Buf.chars content_description).sizeof) fun _ =>
  .call (.H5Acreate (.val group_id) "content" (.val string_type) (.val space_scalar_id)
    .H5P_DEFAULT .H5P_DEFAULT) fun attr_group =>
  .call (.H5Awrite (.val attr_group) (.val string_type) (.chars content_description)) fun _ =>
  .call (.H5Acreate (.val set_id) "mean" .H5T_NATIVE_FLOAT (.val space_scalar_id)
    .H5P_DEFAULT .H5P_DEFAULT) fun attr_set =>
  .call (.H5Awrite (.val attr_set) .H5T_NATIVE_FLOAT (.floats [mean])) fun _ =>
  .call (.H5Tclose (.val string_type)) fun _ =>
  .call (.H5Dclose (.val set_id)) fun _ =>
  .call (.H5Aclose (.val attr_group)) fun _ =>
  .call (.H5Aclose (.val attr_set)) fun _ =>
  .call (.H5Sclose (.val space_scalar_id)) fun _ =>
  .call (.H5Sclose (.val space_matrix_id)) fun _ =>
  .call (.H5Gclose (.val group_id)) fun _ =>
  .call (.H5Fclose (.val file_id)) fun _ =>
  .ret 0

/-- One step of a run: the call made and the value it returned. -/
structure Event where
  call : Call
  result : ℤ
deriving DecidableEq, Repr

/-- Run a program against an environment that answers the `n`-th call (counted
from `idx`) with `results n`, whatever the call is.  Returns the calls made
with their results, in order, and the exit code. -/
def Prog.run (results : ℕ → ℤ) : Prog → ℕ → List Event × ℤ
  | .ret code, _ => ([], code)
  | .call c k, idx =>
    let rest := (k (results idx)).run results (idx + 1)
    (⟨c, results idx⟩ :: rest.1, rest.2)

/-! ### A state model of the HDF5 library -/

/-- Modelled from the spec: the HDF5 library (`hdf5.h` and the functions it
declares) is external to the repository.
The datatypes the program uses: the native `float` and fixed-length strings
of `size` bytes (`H5T_C_S1` is the string type of size one). -/
inductive Datatype where
  | float32
  | string (size : ℕ)
deriving DecidableEq, Repr

/-- Modelled from the spec: the HDF5 library (`hdf5.h` and the functions it
declares) is external to the repository.
Dataspaces: the scalar space, or a simple space with current and maximum
dimensions. -/
inductive Dataspace where
  | scalar
  | simple (dims maxdims : List ℕ)
deriving DecidableEq, Repr

/-- Number of elements of a dataspace. -/
def Dataspace.npoints : Dataspace → ℕ
  | .scalar => 1
  | .simple dims _ => dims.prod

/-- Number of dimensions of a dataspace. -/
def Dataspace.rank : Dataspace → ℕ
  | .scalar => 0
  | .simple dims _ => dims.length

/-- Modelled from the spec: the HDF5 library (`hdf5.h` and the functions it
declares) is external to the repository.
An attribute attached to a group or dataset; `value` is `none` until the
attribute is written. -/
structure Attribute where
  name : String
  type : Datatype
  space : Dataspace
  value : Option Buf
deriving DecidableEq, Repr

/-- Modelled from the spec: the HDF5 library (`hdf5.h` and the functions it
declares) is external to the repository.
The content of an HDF5 file as a tree: a group holds attributes and named
links to its members; a dataset holds its element type, its dataspace, its
elements in row-major order (`none` until written) and its attributes. -/
inductive Node where
  | group (attrs : List Attribute) (links : List (String × Node))
  | dataset (type : Datatype) (space : Dataspace) (data : Option (List ℚ))
      (attrs : List Attribute)

/-- Path of link names from the root group of a file. -/
abbrev Path := List String

/-- Apply `g` to the member linked as `name`; `none` when there is no such link
or `g` fails. -/
def updateLink (name : String) (g : Node → Option Node) :
    List (String × Node) → Option (List (String × Node))
  | [] => none
  | (nm, child) :: rest =>
    if nm = name then (g child).map fun c => (nm, c) :: rest
    else (updateLink name g rest).map fun r => (nm, child) :: r

/-- Apply `f` to the object at `path` below a node; `none` when the path does
not lead to an object or `f` fails. -/
def Node.modify (f : Node → Option Node) : Path → Node → Option Node
  | [], n => f n
  | name :: rest, .group attrs links =>
    (updateLink name (Node.modify f rest) links).map fun ls => .group attrs ls
  | _ :: _, .dataset .. => none

/-- Add a new member `name` to a group; fails on a dataset and when the name
is already linked. -/
def Node.addLink (name : String) (child : Node) : Node → Option Node
  | .group attrs links =>
    if name ∈ links.map Prod.fst then none
    else some (.group attrs (links ++ [(name, child)]))
  | .dataset .. => none

/-- Attributes of an object. -/
def Node.attrs : Node → List Attribute
  | .group attrs _ => attrs
  | .dataset _ _ _ attrs => attrs

/-- Replace the attributes of an object. -/
def Node.setAttrs (as : List Attribute) : Node → Node
  | .group _ links => .group as links
  | .dataset t s d _ => .dataset t s d as

/-- Attach a new, unwritten attribute; fails when the name is already used on
the object. -/
def Node.addAttr (a : Attribute) (n : Node) : Option Node :=
  if a.name ∈ n.attrs.map Attribute.name then none
  else some (n.setAttrs (n.attrs ++ [a]))

/-- The bytes or elements the library reads from a buffer when it transfers
`npoints` elements of memory type `t`: `none` when the buffer has the wrong
element kind or is too short for the read to stay inside it. -/
def Buf.read (t : Datatype) (npoints : ℕ) : Buf → Option Buf
  | .floats xs =>
    if t = .float32 ∧ npoints ≤ xs.length then some (.floats (xs.take npoints)) else none
  | .chars cs =>
    match t with
    | .string size =>
      if npoints * size ≤ cs.length then some (.chars (cs.take (npoints * size))) else none
    | .float32 => none

/-- Write the attribute `name` of an object from a buffer of memory type `t`
(only the identity conversion is modelled: `t` must be the attribute's type). -/
def Node.writeAttr (name : String) (t : Datatype) (buf : Buf) (n : Node) : Option Node :=
  match n.attrs.find? (fun a => a.name = name) with
  | none => none
  | some a =>
    if a.type = t then
      match buf.read t a.space.npoints with
      | none => none
      | some v =>
        some (n.setAttrs (n.attrs.map fun b =>
          if b.name = name then { b with value := some v } else b))
    else none

/-- Write all elements of a dataset from a buffer of memory type `t`, with
memory and file selections `ms` and `fs` (only whole-extent selections of the
dataset's own extent and the identity conversion are modelled). -/
def Node.writeData (t : Datatype) (ms fs : Dataspace) (buf : Buf) : Node → Option Node
  | .group .. => none
  | .dataset type space _ attrs =>
    if type = t ∧ t = .float32 ∧ fs = space ∧ ms.npoints = fs.npoints then
      match buf.read t fs.npoints with
      | some (.floats xs) => some (.dataset type space (some xs) attrs)
      | _ => none
    else none

/-- What an open identifier refers to. -/
inductive Handle where
  | file (name : String)
  | group (file : String) (path : Path)
  | dataset (file : String) (path : Path)
  | attr (file : String) (path : Path) (name : String)
  | space (s : Dataspace)
  | type (t : Datatype)
deriving DecidableEq, Repr

/-- Modelled from the spec: the HDF5 library (`hdf5.h` and the functions it
declares) is external to the repository.
The state the library calls act on: the files on disk by name, the table of
open identifiers, and the number of identifiers handed out so far. -/
structure State where
  disk : String → Option Node
  handles : List (ℤ × Handle)
  next : ℕ

/-- State of a fresh process: nothing open, arbitrary files on disk, `next`
the first identifier the library will hand out. -/
def State.initial (disk : String → Option Node) (next : ℕ) : State :=
  ⟨disk, [], next⟩

/-- What an identifier refers to in a state: an entry of the table of open
identifiers, or one of the library-defined datatypes.  Only identifiers handed
out by `State.openHandle` are in the table, so a negative value refers to
nothing. -/
def State.lookup (s : State) : hid_t → Option Handle
  | .val n => (s.handles.find? fun e => e.1 = n).map Prod.snd
  | .H5T_NATIVE_FLOAT => some (.type .float32)
  | .H5T_C_S1 => some (.type (.string 1))
  | .H5P_DEFAULT => none

/-- The object an identifier designates as a location: a file designates its
root group. -/
def State.location (s : State) (id : hid_t) : Option (String × Path) :=
  match s.lookup id with
  | some (.file f) => some (f, [])
  | some (.group f p) => some (f, p)
  | some (.dataset f p) => some (f, p)
  | _ => none

/-- The datatype an identifier designates. -/
def State.datatype (s : State) (id : hid_t) : Option Datatype :=
  match s.lookup id with
  | some (.type t) => some t
  | _ => none

/-- The dataspace an identifier designates. -/
def State.dataspace (s : State) (id : hid_t) : Option Dataspace :=
  match s.lookup id with
  | some (.space sp) => some sp
  | _ => none

/-- A failed call: negative result, state unchanged. -/
def State.fail (s : State) : ℤ × State := (-1, s)

/-- Hand out a fresh identifier for `h`. -/
def State.openHandle (s : State) (h : Handle) : ℤ × State :=
  (s.next, { s with handles := (s.next, h) :: s.handles, next := s.next + 1 })

/-- Apply `f` to the object at `path` of file `file` on disk. -/
def State.modifyObject (s : State) (file : String) (path : Path) (f : Node → Option Node) :
    Option State :=
  match s.disk file with
  | none => none
  | some root =>
    match root.modify f path with
    | none => none
    | some root' => some { s with disk := Function.update s.disk file (some root') }

/-- Close an identifier that must refer to a handle accepted by `ok`. -/
def State.close (s : State) (id : hid_t) (ok : Handle → Bool) : ℤ × State :=
  match id with
  | .val n =>
    match s.lookup (.val n) with
    | some h =>
      if ok h then (0, { s with handles := s.handles.filter fun e => e.1 ≠ n }) else s.fail
    | none => s.fail
  | _ => s.fail

/-- Modelled from the spec: the HDF5 library (`hdf5.h` and the functions it
declares) is external to the repository.
Effect and result of one library call, after the library's reference manual,
for the features the program uses: default property lists, link names of one
component, whole-extent transfers without datatype conversion.  A call whose
arguments do not designate what it needs fails: it returns a negative value
and changes nothing.  `H5Fcreate` with `H5F_ACC_TRUNC` replaces whatever the
file held by an empty root group; it fails when the file is already open.
Written data reaches the file at once. -/
def step : Call → State → ℤ × State
  | .H5Fcreate name .H5F_ACC_TRUNC fcpl fapl, s =>
    if fcpl = .H5P_DEFAULT ∧ fapl = .H5P_DEFAULT
        ∧ Handle.file name ∉ s.handles.map Prod.snd then
      State.openHandle { s with disk := Function.update s.disk name (some (.group [] [])) }
        (.file name)
    else s.fail
  | .H5Gcreate loc name lcpl gcpl gapl, s =>
    if lcpl = .H5P_DEFAULT ∧ gcpl = .H5P_DEFAULT ∧ gapl = .H5P_DEFAULT then
      match s.location loc with
      | some (f, p) =>
        match s.modifyObject f p (Node.addLink name (.group [] [])) with
        | some s' => s'.openHandle (.group f (p ++ [name]))
        | none => s.fail
      | none => s.fail
    else s.fail
  | .H5Screate_simple rank dims maxdims, s =>
    if 1 ≤ rank ∧ rank ≤ 32 ∧ rank.toNat ≤ dims.length ∧ rank.toNat ≤ maxdims.length
        ∧ List.Forall₂ (fun d m => d ≤ m) (dims.take rank.toNat) (maxdims.take rank.toNat) then
      s.openHandle (.space (.simple (dims.take rank.toNat) (maxdims.take rank.toNat)))
    else s.fail
  | .H5Dcreate loc name type space lcpl dcpl dapl, s =>
    if lcpl = .H5P_DEFAULT ∧ dcpl = .H5P_DEFAULT ∧ dapl = .H5P_DEFAULT then
      match s.location loc, s.datatype type, s.dataspace space with
      | some (f, p), some t, some sp =>
        match s.modifyObject f p (Node.addLink name (.dataset t sp none [])) with
        | some s' => s'.openHandle (.dataset f (p ++ [name]))
        | none => s.fail
      | _, _, _ => s.fail
    else s.fail
  | .H5Dwrite dset memtype memspace filespace dxpl buf, s =>
    if dxpl = .H5P_DEFAULT then
      match s.lookup dset, s.datatype memtype, s.dataspace memspace, s.dataspace filespace with
      | some (.dataset f p), some t, some ms, some fs =>
        match s.modifyObject f p (Node.writeData t ms fs buf) with
        | some s' => (0, s')
        | none => s.fail
      | _, _, _, _ => s.fail
    else s.fail
  | .H5Screate .H5S_SCALAR, s => s.openHandle (.space .scalar)
  | .H5Tcopy type, s =>
    match s.datatype type with
    | some t => s.openHandle (.type t)
    | none => s.fail
  | .H5Tset_size type size, s =>
    match type with
    | .val n =>
      match s.lookup (.val n) with
      | some (.type (.string _)) =>
        if 0 < size then
          (0, { s with handles := s.handles.map fun e =>
                  if e.1 = n then (e.1, .type (.string size)) else e })
        else s.fail
      | _ => s.fail
    | _ => s.fail
  | .H5Acreate loc name type space acpl aapl, s =>
    if acpl = .H5P_DEFAULT ∧ aapl = .H5P_DEFAULT then
      match s.location loc, s.datatype type, s.dataspace space with
      | some (f, p), some t, some sp =>
        match s.modifyObject f p (Node.addAttr ⟨name, t, sp, none⟩) with
        | some s' => s'.openHandle (.attr f p name)
        | none => s.fail
      | _, _, _ => s.fail
    else s.fail
  | .H5Awrite attr memtype buf, s =>
    match s.lookup attr, s.datatype memtype with
    | some (.attr f p name), some t =>
      match s.modifyObject f p (Node.writeAttr name t buf) with
      | some s' => (0, s')
      | none => s.fail
    | _, _ => s.fail
  | .H5Tclose id, s => s.close id fun h => match h with | .type _ => true | _ => false
  | .H5Dclose id, s => s.close id fun h => match h with | .dataset .. => true | _ => false
  | .H5Aclose id, s => s.close id fun h => match h with | .attr .. => true | _ => false
  | .H5Sclose id, s => s.close id fun h => match h with | .space _ => true | _ => false
  | .H5Gclose id, s => s.close id fun h => match h with | .group .. => true | _ => false
  | .H5Fclose id, s => s.close id fun h => match h with | .file _ => true | _ => false

/-- Run a program against the library model: the calls made with their
results, the exit code, and the final state. -/
def Prog.exec : Prog → State → List Event × ℤ × State
  | .ret code, s => ([], code, s)
  | .call c k, s =>
    let r := step c s
    let rest := (k r.1).exec r.2
    (⟨c, r.1⟩ :: rest.1, rest.2)

mutual
/-- All attributes below a node, each with the path of the object carrying it. -/
def Node.attributes : Path → Node → List (Path × Attribute)
  | p, .group attrs links => attrs.map (fun a => (p, a)) ++ linksAttributes p links
  | p, .dataset _ _ _ attrs => attrs.map (fun a => (p, a))
/-- All attributes below the members of a group at path `p`. -/
def linksAttributes : Path → List (String × Node) → List (Path × Attribute)
  | _, [] => []
  | p, (nm, c) :: rest => c.attributes (p ++ [nm]) ++ linksAttributes p rest
end

/-- First member of a group linked under `name`. -/
def findLink (name : String) : List (String × Node) → Option Node
  | [] => none
  | (nm, child) :: rest => if nm = name then some child else findLink name rest

/-- The object at `path` below a node. -/
def Node.find : Path → Node → Option Node
  | [], n => some n
  | name :: rest, .group _ links =>
    match findLink name links with
    | some child => child.find rest
    | none => none
  | _ :: _, .dataset .. => none

/-- Whether an object is a group. -/
def Node.isGroup : Node → Bool
  | .group .. => true
  | .dataset .. => false

/-- Whether an object is a dataset. -/
def Node.isDataset : Node → Bool
  | .group .. => false
  | .dataset .. => true

/-- Accumulator form of `Prog.exec`, used to evaluate a run call by call:
`acc` holds the results so far, latest first; the outcome is the list of
results in order, the exit code and the final state. -/
def Prog.outcome : Prog → State → List ℤ → List ℤ × ℤ × State
  | .ret code, s, acc => (acc.reverse, code, s)
  | .call c k, s, acc => (k (step c s).1).outcome (step c s).2 ((step c s).1 :: acc)

/-- Continuation of `Prog.outcome` once a call has been answered. -/
def outcomeAfter (k : ℤ → Prog) (acc : List ℤ) (r : ℤ × State) : List ℤ × ℤ × State :=
  (k r.1).outcome r.2 (r.1 :: acc)

/-! ### Tracking open identifiers along a run -/

/-- The run-time identifier an argument of type `hid_t` carries; none for the
library-defined ones, which are always valid. -/
def hid_t.ids : hid_t → List ℤ
  | .val n => [n]
  | _ => []

/-- The run-time identifiers a call is passed. -/
def Call.uses : Call → List ℤ
  | .H5Fcreate _ _ fcpl fapl => fcpl.ids ++ fapl.ids
  | .H5Gcreate loc _ lcpl gcpl gapl => loc.ids ++ lcpl.ids ++ gcpl.ids ++ gapl.ids
  | .H5Screate_simple .. => []
  | .H5Dcreate loc _ type space lcpl dcpl dapl =>
    loc.ids ++ type.ids ++ space.ids ++ lcpl.ids ++ dcpl.ids ++ dapl.ids
  | .H5Dwrite dset memtype memspace filespace dxpl _ =>
    dset.ids ++ memtype.ids ++ memspace.ids ++ filespace.ids ++ dxpl.ids
  | .H5Screate _ => []
  | .H5Tcopy type => type.ids
  | .H5Tset_size type _ => type.ids
  | .H5Acreate loc _ type space acpl aapl =>
    loc.ids ++ type.ids ++ space.ids ++ acpl.ids ++ aapl.ids
  | .H5Awrite attr memtype _ => attr.ids ++ memtype.ids
  | .H5Tclose id => id.ids
  | .H5Dclose id => id.ids
  | .H5Aclose id => id.ids
  | .H5Sclose id => id.ids
  | .H5Gclose id => id.ids
  | .H5Fclose id => id.ids

/-- Whether the value a call returns is a new identifier. -/
def Call.opens : Call → Bool
  | .H5Fcreate .. => true
  | .H5Gcreate .. => true
  | .H5Screate_simple .. => true
  | .H5Dcreate .. => true
  | .H5Screate _ => true
  | .H5Tcopy _ => true
  | .H5Acreate .. => true
  | _ => false

/-- The run-time identifier a closing call is given. -/
def Call.closes : Call → List ℤ
  | .H5Tclose id => id.ids
  | .H5Dclose id => id.ids
  | .H5Aclose id => id.ids
  | .H5Sclose id => id.ids
  | .H5Gclose id => id.ids
  | .H5Fclose id => id.ids
  | _ => []

/-- Whether a call is one of the closing calls. -/
def Call.isClose : Call → Bool
  | .H5Tclose _ => true
  | .H5Dclose _ => true
  | .H5Aclose _ => true
  | .H5Sclose _ => true
  | .H5Gclose _ => true
  | .H5Fclose _ => true
  | _ => false

/-- The identifiers opened along a run, in order. -/
def opened (t : List Event) : List ℤ :=
  (t.filter fun e => e.call.opens).map Event.result

/-- The identifiers closed along a run, in order. -/
def closed (t : List Event) : List ℤ :=
  (t.map fun e => e.call.closes).flatten

/-- Follow the set of open identifiers along a run, starting from `live`.
The result is `none` as soon as a call is passed an identifier that is not
open at that point (never opened, or closed before), a closing call is not
given an identifier, or a returned identifier is negative or already open;
otherwise it is the set of identifiers still open at the end. -/
def track : List Event → List ℤ → Option (List ℤ)
  | [], live => some live
  | e :: rest, live =>
    if e.call.uses.all (fun id => decide (id ∈ live)) then
      if e.call.isClose then
        match e.call.closes with
        | [id] => track rest (live.erase id)
        | _ => none
      else if e.call.opens then
        if 0 ≤ e.result ∧ e.result ∉ live then track rest (e.result :: live) else none
      else track rest live
    else none

end Hdf5

/-! ## Loops and outcomes shared by the C and C++ programs -/

/-- How the execution of a piece of code ends: normally with a value, by
signed integer overflow (undefined behaviour), or not within the step budget
given to the model. -/
inductive Outcome (α : Type) where
  | done (a : α)
  | overflow
  | outOfFuel
deriving DecidableEq, Repr

/-- Largest value of `int` (32 bits). -/
def INT_MAX : ℤ := 2147483647

/-- The statement `for (int i = 0; i < n; i++) body` from the point where the
counter has value `i`: `fuel` bounds the number of times the condition is
evaluated.  Incrementing the counter past `INT_MAX` is undefined behaviour. -/
def forInt {σ : Type} (n : ℤ) (body : ℤ → σ → Outcome σ) : ℕ → ℤ → σ → Outcome σ
  | 0, _, _ => .outOfFuel
  | fuel + 1, i, s =>
    if i < n then
      match body i s with
      | .done s' => if i + 1 ≤ INT_MAX then forInt n body fuel (i + 1) s' else .overflow
      | .overflow => .overflow
      | .outOfFuel => .outOfFuel
    else .done s

/-- The statement `for (size_t i = 0; i < n; ++i) body` from the point where
the counter has value `i`: `size_t` is 64 bits wide and wraps around. -/
def forSize {σ : Type} (n : ℕ) (body : ℕ → σ → σ) : ℕ → ℕ → σ → Outcome σ
  | 0, _, _ => .outOfFuel
  | fuel + 1, i, s =>
    if i < n then forSize n body fuel ((i + 1) % 2 ^ 64) (body i s) else .done s

/-! ## `monte_carlo.cpp` -/

namespace MonteCarlo

/-- What is inserted into `std::cout`: a string, a `double` (by its value; its
decimal rendering is the stream library's) or a character. -/
inductive Out where
  | str (s : String)
  | dbl (v : ℚ)
  | chr (c : Char)
deriving DecidableEq, Repr

/-- The constant `num_points`. -/
def num_points : ℕ := 10000000

/-- State of the loop: how many values have been drawn from `dis(gen)` so far,
and the counter `num_points_inside_circle`. -/
structure Vars where
  drawn : ℕ
  num_points_inside_circle : ℕ
deriving DecidableEq, Repr

/-- The condition `x * x + y * y <= 1.0` in `double` arithmetic: each product
and the sum are rounded. -/
def insideCircle (x y : ℚ) : Prop :=
  binary64 (binary64 (x * x) + binary64 (y * y)) ≤ 1

instance (x y : ℚ) : Decidable (insideCircle x y) := by
  unfold insideCircle; infer_instance

/-- The loop body: two draws, then the conditional increment of the `size_t`
counter.  `draw n` is the value the `n`-th evaluation of `dis(gen)` returns. -/
def body (draw : ℕ → ℚ) (_i : ℕ) (v : Vars) : Vars :=
  let x := draw v.drawn
  let y := draw (v.drawn + 1)
  if insideCircle x y then ⟨v.drawn + 2, (v.num_points_inside_circle + 1) % 2 ^ 64⟩
  else ⟨v.drawn + 2, v.num_points_inside_circle⟩

/-- The expression `4.0 * num_points_inside_circle / num_points`: both integers
are converted to `double`, the product and the quotient are rounded. -/
def estimate (inside : ℕ) : ℚ :=
  binary64 (binary64 (4 * binary64 inside) / binary64 num_points)

/-- The function `main` of `monte_carlo.cpp`: what it inserts into `std::cout`
and its exit code. -/
def main (draw : ℕ → ℚ) (fuel : ℕ) : Outcome (List Out × ℤ) :=
  match forSize num_points (body draw) fuel 0 ⟨0, 0⟩ with
  | .done v => .done ([.str "Pi: ", .dbl (estimate v.num_points_inside_circle), .chr '\n'], 0)
  | .overflow => .overflow
  | .outOfFuel => .outOfFuel

end MonteCarlo

/-! ## `simple_micro.cpp` -/

namespace SimpleMicro

/-- The constant `iterations`. -/
def iterations : ℤ := 100000000

/-- The timed loop `for (int i = 0; i < iterations; i++) { sum(a, b); }`; the
state counts the calls of `sum`, whose result is discarded.  The function `sum`
of `sum.hpp` is a parameter. -/
def timedLoop (sum : ℤ → ℤ → ℤ) (a b : ℤ) (fuel : ℕ) : Outcome ℕ :=
  forInt iterations (fun _ calls => let _r := sum a b; .done (calls + 1)) fuel 0 0

/-- The expression `duration_cast<microseconds>(end - start).count()` for clock
readings in nanosecond ticks held in 64-bit signed integers: the difference,
then division by 1000 truncating toward zero.  A difference outside the range
of the representation is an overflow. -/
def elapsedMicros (start stop : ℤ) : Outcome ℤ :=
  if -2 ^ 63 ≤ stop - start ∧ stop - start < 2 ^ 63 then .done ((stop - start).tdiv 1000)
  else .overflow

/-- The line `std::cout << label << duration << " microseconds" << std::endl`. -/
def report (label : String) (duration : ℤ) : String :=
  label ++ toString duration ++ " microseconds" ++ "\n"

/-- The function `main` of `simple_micro.cpp`: the text written to `std::cout`
and the exit code.  `clock n` is the reading the `n`-th call of
`steady_clock::now()` returns. -/
def main (sum : ℤ → ℤ → ℤ) (clock : ℕ → ℤ) (fuel : ℕ) : Outcome (String × ℤ) :=
  let start := clock 0
  match timedLoop sum 1 2 fuel with
  | .done _ =>
    let stop := clock 1
    match elapsedMicros start stop with
    | .done duration =>
      let out := report "sum(1, 2) took " duration
      let start := clock 2
      match timedLoop sum 10 20 fuel with
      | .done _ =>
        let stop := clock 3
        match elapsedMicros start stop with
        | .done duration => .done (out ++ report "sum(10, 20) took " duration, 0)
        | .overflow => .overflow
        | .outOfFuel => .outOfFuel
      | .overflow => .overflow
      | .outOfFuel => .outOfFuel
    | .overflow => .overflow
    | .outOfFuel => .outOfFuel
  | .overflow => .overflow
  | .outOfFuel => .outOfFuel

end SimpleMicro

/-! ## `conditional-vs-fabs.c` -/

namespace CondFabs

/-- Values of type `double`, signs of zero included: a number by its exact
value (`num 0` is `+0.0`), negative zero, an infinity, or a NaN. -/
inductive Dbl where
  | num (q : ℚ)
  | negZero
  | inf (negative : Bool)
  | nan
deriving DecidableEq, Repr

/-- Unary minus. -/
def Dbl.neg : Dbl → Dbl
  | .num q => if q = 0 then .negZero else .num (-q)
  | .negZero => .num 0
  | .inf s => .inf (!s)
  | .nan => .nan

/-- The comparison `x < 0`. -/
def Dbl.ltZero : Dbl → Bool
  | .num q => decide (q < 0)
  | .negZero => false
  | .inf s => s
  | .nan => false

/-- The library function `fabs`: clears the sign. -/
def fabs : Dbl → Dbl
  | .num q => .num |q|
  | .negZero => .num 0
  | .inf _ => .inf false
  | .nan => .nan

/-- The commented-out line: `(residuum < 0) ? -residuum : residuum`. -/
def conditional (residuum : Dbl) : Dbl :=
  if residuum.ltZero then residuum.neg else residuum

/-- Six decimal digits, padded with zeros on the left. -/
def pad6 (n : ℕ) : String :=
  String.mk (List.replicate (6 - (toString n).length) '0') ++ toString n

/-- The conversion `%f` of `printf`: six digits after the decimal point, the
exact value rounded to nearest, ties to even. -/
def formatF : Dbl → String
  | .nan => "nan"
  | .inf false => "inf"
  | .inf true => "-inf"
  | .negZero => "-0.000000"
  | .num q =>
    (if q < 0 then "-" else "")
      ++ toString ((roundNE (|q| * 1000000)).toNat / 1000000) ++ "."
      ++ pad6 ((roundNE (|q| * 1000000)).toNat % 1000000)

/-- The innermost loop, with `absolute` the statement's right-hand side. -/
def loopK (absolute : Dbl → Dbl) (fuel : ℕ) (residuum : Dbl) : Outcome Dbl :=
  forInt 1000 (fun _ r => .done (absolute r)) fuel 0 residuum

/-- The loop over `j`: each pass assigns `(j % 2) ? 1.0 : -1.0` and runs the
innermost loop. -/
def loopJ (absolute : Dbl → Dbl) (fuel : ℕ) (residuum : Dbl) : Outcome Dbl :=
  forInt 1000
    (fun j _ => loopK absolute fuel (if j.tmod 2 ≠ 0 then .num 1 else .num (-1)))
    fuel 0 residuum

/-- The loop over `i`. -/
def loopI (absolute : Dbl → Dbl) (fuel : ℕ) (residuum : Dbl) : Outcome Dbl :=
  forInt 1000 (fun _ r => loopJ absolute fuel r) fuel 0 residuum

/-- The function `main` with `absolute` as the computation of the inner
statement: the final value of `residuum`, the text printed and the exit code.
`residuum` starts out indeterminate (`initial`). -/
def mainWith (absolute : Dbl → Dbl) (initial : Dbl) (fuel : ℕ) : Outcome (Dbl × String × ℤ) :=
  match loopI absolute fuel initial with
  | .done residuum => .done (residuum, formatF residuum ++ "\n", 0)
  | .overflow => .overflow
  | .outOfFuel => .outOfFuel

/-- The function `main` of `conditional-vs-fabs.c` as it stands, calling `fabs`. -/
def main (initial : Dbl) (fuel : ℕ) : Outcome (Dbl × String × ℤ) :=
  mainWith fabs initial fuel

/-- The program with the commented-out line in place of the call of `fabs`. -/
def mainConditional (initial : Dbl) (fuel : ℕ) : Outcome (Dbl × String × ℤ) :=
  mainWith conditional initial fuel

end CondFabs

end Blog

namespace Blog

/-! ## Facts about rounding -/

theorem log_two_eq {q : ℚ} {e : ℤ} (h1 : (2 : ℚ) ^ e ≤ q) (h2 : q < (2 : ℚ) ^ (e + 1)) :
    Int.log 2 q = e := by
  have hq : 0 < q := lt_of_lt_of_le (by positivity) h1
  have a : e ≤ Int.log 2 q := (Int.zpow_le_iff_le_log (by norm_num) hq).1 (by simpa using h1)
  have b : Int.log 2 q < e + 1 := (Int.lt_zpow_iff_log_lt (by norm_num) hq).1 (by simpa using h2)
  omega

theorem roundNE_intCast (n : ℤ) : roundNE (n : ℚ) = n := by
  simp [roundNE]

theorem roundNE_eq {x : ℚ} {n : ℤ} (h1 : (n : ℚ) - 1 / 2 < x) (h2 : x < n + 1 / 2) :
    roundNE x = n := by
  have hfl := Int.floor_le x
  have hfu := Int.lt_floor_add_one x
  have a : n - 1 ≤ ⌊x⌋ := by
    have : ((n - 1 : ℤ) : ℚ) < ⌊x⌋ + 1 := by push_cast; linarith
    have := Int.cast_lt.1 (by exact_mod_cast this : ((n - 1 : ℤ) : ℚ) < ((⌊x⌋ + 1 : ℤ) : ℚ))
    omega
  have b : ⌊x⌋ ≤ n := by
    have : (⌊x⌋ : ℚ) < ((n + 1 : ℤ) : ℚ) := by push_cast; linarith
    have := Int.cast_lt.1 this
    omega
  rcases (by omega : ⌊x⌋ = n - 1 ∨ ⌊x⌋ = n) with hfloor | hfloor
  · have hx : 1 / 2 < x - ⌊x⌋ := by rw [hfloor]; push_cast; linarith
    unfold roundNE
    rw [if_neg (by linarith), if_pos hx, hfloor]; ring
  · have hx : x - ⌊x⌋ < 1 / 2 := by rw [hfloor]; linarith
    unfold roundNE
    rw [if_pos hx, hfloor]

theorem roundBinary_eq {p : ℕ} {emin : ℤ} {q : ℚ} (e m : ℤ) (hq : q ≠ 0)
    (he : quantumExp p emin q = e) (hm : roundNE (q / 2 ^ e) = m) :
    roundBinary p emin q = m * 2 ^ e := by
  unfold roundBinary
  rw [if_neg hq, he, hm]

theorem quantumExp_of_pos (p : ℕ) (emin : ℤ) {q : ℚ} (l : ℤ) (h1 : (2 : ℚ) ^ l ≤ q)
    (h2 : q < (2 : ℚ) ^ (l + 1)) :
    quantumExp p emin q = max (l - (p - 1)) (emin - (p - 1)) := by
  have hq : 0 < q := lt_of_lt_of_le (by positivity) h1
  rw [quantumExp, abs_of_pos hq, log_two_eq h1 h2]

theorem binary32_42 : binary32 42 = 42 := by
  have he : quantumExp 24 (-126) 42 = -18 := by
    rw [quantumExp_of_pos 24 (-126) 5 (by norm_num) (by norm_num)]; norm_num
  unfold binary32
  rw [roundBinary_eq (-18) 11010048 (by norm_num) he
    (by rw [show (42 : ℚ) / 2 ^ (-18 : ℤ) = ((11010048 : ℤ) : ℚ) by norm_num, roundNE_intCast])]
  norm_num

theorem binary64_42_42 : binary64 42.42 = 2985042128016507 / 70368744177664 := by
  have he : quantumExp 53 (-1022) 42.42 = -47 := by
    rw [quantumExp_of_pos 53 (-1022) 5 (by norm_num) (by norm_num)]; norm_num
  unfold binary64
  rw [roundBinary_eq (-47) 5970084256033014 (by norm_num) he
    (roundNE_eq (by norm_num) (by norm_num))]
  norm_num

theorem binary32_42_42 : binary32 (binary64 42.42) = 11120148 / 262144 := by
  rw [binary64_42_42]
  have he : quantumExp 24 (-126) (2985042128016507 / 70368744177664) = -18 := by
    rw [quantumExp_of_pos 24 (-126) 5 (by norm_num) (by norm_num)]; norm_num
  unfold binary32
  rw [roundBinary_eq (-18) 11120148 (by norm_num) he
    (roundNE_eq (by norm_num) (by norm_num))]
  norm_num

theorem binary64_42_05 : binary64 42.05 = 2959005692670771 / 70368744177664 := by
  have he : quantumExp 53 (-1022) 42.05 = -47 := by
    rw [quantumExp_of_pos 53 (-1022) 5 (by norm_num) (by norm_num)]; norm_num
  unfold binary64
  rw [roundBinary_eq (-47) 5918011385341542 (by norm_num) he
    (roundNE_eq (by norm_num) (by norm_num))]
  norm_num

theorem binary32_42_05 : binary32 (binary64 42.05) = 11023155 / 262144 := by
  rw [binary64_42_05]
  have he : quantumExp 24 (-126) (2959005692670771 / 70368744177664) = -18 := by
    rw [quantumExp_of_pos 24 (-126) 5 (by norm_num) (by norm_num)]; norm_num
  unfold binary32
  rw [roundBinary_eq (-18) 11023155 (by norm_num) he
    (roundNE_eq (by norm_num) (by norm_num))]
  norm_num

end Blog

namespace Blog.Hdf5

/-! ## `hdf5-example.c`: the calls made, whatever they return -/

/-- C6, the count of calls as the enumeration in the claim and the code have it:
however the library answers, the calls `main` attempts are 20, not 18. -/
theorem main_call_count_ne_18 : (main.run (fun _ => -1) 0).1.length ≠ 18 := by
  decide

/-- C6 (amended to 20 calls): for every assignment of results to the library
calls, failures included, `main` of `hdf5-example.c` makes the same 20 calls
in the same order (file, group, dataspace, dataset, write, scalar space, type
copy, set size, two attribute create/write pairs, eight closes), each exactly
once and nothing else, and returns 0. -/
theorem main_call_sequence (results : ℕ → ℤ) :
    ((main.run results 0).1.map fun e => e.call.name) =
      ["H5Fcreate", "H5Gcreate", "H5Screate_simple", "H5Dcreate", "H5Dwrite", "H5Screate",
       "H5Tcopy", "H5Tset_size", "H5Acreate", "H5Awrite", "H5Acreate", "H5Awrite",
       "H5Tclose", "H5Dclose", "H5Aclose", "H5Aclose", "H5Sclose", "H5Sclose",
       "H5Gclose", "H5Fclose"]
    ∧ (main.run results 0).1.map Event.result = (List.range 20).map results
    ∧ (main.run results 0).2 = 0 := by
  refine ⟨rfl, rfl, rfl⟩

theorem run_main (results : ℕ → ℤ) :
    (main.run results 0).1 =
      [⟨.H5Fcreate "solution.h5" .H5F_ACC_TRUNC .H5P_DEFAULT .H5P_DEFAULT, results 0⟩,
       ⟨.H5Gcreate (.val (results 0)) "important_data" .H5P_DEFAULT .H5P_DEFAULT .H5P_DEFAULT,
         results 1⟩,
       ⟨.H5Screate_simple 2 [3, 3] [3, 3], results 2⟩,
       ⟨.H5Dcreate (.val (results 1)) "my_cool_data" .H5T_NATIVE_FLOAT (.val (results 2))
         .H5P_DEFAULT .H5P_DEFAULT .H5P_DEFAULT, results 3⟩,
       ⟨.H5Dwrite (.val (results 3)) .H5T_NATIVE_FLOAT (.val (results 2)) (.val (results 2))
         .H5P_DEFAULT (.floats important_numbers.flatten), results 4⟩,
       ⟨.H5Screate .H5S_SCALAR, results 5⟩,
       ⟨.H5Tcopy .H5T_C_S1, results 6⟩,
       ⟨.H5Tset_size (.val (results 6)) (Buf.chars content_description).sizeof, results 7⟩,
       ⟨.H5Acreate (.val (results 1)) "content" (.val (results 6)) (.val (results 5))
         .H5P_DEFAULT .H5P_DEFAULT, results 8⟩,
       ⟨.H5Awrite (.val (results 8)) (.val (results 6)) (.chars content_description), results 9⟩,
       ⟨.H5Acreate (.val (results 3)) "mean" .H5T_NATIVE_FLOAT (.val (results 5))
         .H5P_DEFAULT .H5P_DEFAULT, results 10⟩,
       ⟨.H5Awrite (.val (results 10)) .H5T_NATIVE_FLOAT (.floats [mean]), results 11⟩,
       ⟨.H5Tclose (.val (results 6)), results 12⟩,
       ⟨.H5Dclose (.val (results 3)), results 13⟩,
       ⟨.H5Aclose (.val (results 8)), results 14⟩,
       ⟨.H5Aclose (.val (results 10)), results 15⟩,
       ⟨.H5Sclose (.val (results 5)), results 16⟩,
       ⟨.H5Sclose (.val (results 2)), results 17⟩,
       ⟨.H5Gclose (.val (results 1)), results 18⟩,
       ⟨.H5Fclose (.val (results 0)), results 19⟩] := rfl

/-- C7: in every run of `main` of `hdf5-example.c` in which the eight creating
calls return valid, pairwise distinct identifiers, the set of open identifiers
tracked along the run is never violated (no identifier is passed to a call
before it is opened or after it is closed, none is closed that is not open),
the eight identifiers opened are each closed exactly once, nothing else is
closed, the file identifier is closed last, and no identifier is open when
`main` returns. -/
theorem main_closes_every_handle (results : ℕ → ℤ)
    (hvalid : ∀ i ∈ [0, 1, 2, 3, 5, 6, 8, 10], 0 ≤ results i)
    (hfresh : [results 0, results 1, results 2, results 3, results 5, results 6, results 8,
      results 10].Nodup) :
    track (main.run results 0).1 [] = some []
    ∧ opened (main.run results 0).1 =
        [results 0, results 1, results 2, results 3, results 5, results 6, results 8, results 10]
    ∧ closed (main.run results 0).1 =
        [results 6, results 3, results 8, results 10, results 5, results 2, results 1, results 0]
    ∧ (∀ id ∈ opened (main.run results 0).1, (closed (main.run results 0).1).count id = 1)
    ∧ (∀ id ∈ closed (main.run results 0).1, id ∈ opened (main.run results 0).1)
    ∧ (main.run results 0).1.getLast? = some ⟨.H5Fclose (.val (results 0)), results 19⟩ := by
  have hopened : opened (main.run results 0).1 =
      [results 0, results 1, results 2, results 3, results 5, results 6, results 8,
        results 10] := by
    rw [run_main]; simp [opened, Call.opens]
  have hclosed : closed (main.run results 0).1 =
      [results 6, results 3, results 8, results 10, results 5, results 2, results 1,
        results 0] := by
    rw [run_main]; simp [closed, Call.closes, hid_t.ids]
  simp only [List.mem_cons, List.mem_singleton, forall_eq_or_imp, List.not_mem_nil,
    IsEmpty.forall_iff, implies_true, and_true] at hvalid
  obtain ⟨v0, v1, v2, v3, v5, v6, v8, v10⟩ := hvalid
  have hrev := List.nodup_reverse.2 hfresh
  simp only [List.nodup_cons, List.mem_cons, List.mem_singleton, not_or, List.not_mem_nil,
    not_false_eq_true, List.nodup_nil, and_true] at hfresh
  obtain ⟨⟨a1, a2, a3, a5, a6, a8, a10⟩, ⟨b2, b3, b5, b6, b8, b10⟩, ⟨c3, c5, c6, c8, c10⟩,
    ⟨d5, d6, d8, d10⟩, ⟨e6, e8, e10⟩, ⟨f8, f10⟩, g10⟩ := hfresh
  simp only [List.reverse_cons, List.reverse_nil, List.nil_append, List.cons_append,
    List.nodup_cons, List.mem_cons, List.mem_singleton, not_or, List.not_mem_nil,
    not_false_eq_true, List.nodup_nil, and_true] at hrev
  obtain ⟨⟨g8, g6, g5, g3, g2, g1, g0⟩, ⟨h6, h5, h3, h2, h1, h0⟩, ⟨i5, i3, i2, i1, i0⟩,
    ⟨j3, j2, j1, j0⟩, ⟨k2, k1, k0⟩, ⟨l1, l0⟩, m0⟩ := hrev
  refine ⟨?_, hopened, hclosed, ?_, ?_, ?_⟩
  · rw [run_main]
    simp [track, Call.uses, Call.isClose, Call.opens, Call.closes, hid_t.ids, List.erase_cons, *]
  · rw [hopened, hclosed]
    intro id hid
    simp only [List.mem_cons, List.mem_singleton, List.not_mem_nil, or_false] at hid
    rcases hid with h | h | h | h | h | h | h | h <;> subst h <;>
      simp [List.count_cons, *]
  · rw [hopened, hclosed]
    intro id hid
    simp only [List.mem_cons, List.mem_singleton, List.not_mem_nil, or_false] at hid
    rcases hid with h | h | h | h | h | h | h | h <;> simp [h]
  · rw [run_main]; simp

end Blog.Hdf5

namespace Blog.Hdf5

/-! ## `hdf5-example.c`: the run against the library model -/

theorem outcome_call (c : Call) (k : ℤ → Prog) (s : State) (acc : List ℤ) :
    (Prog.call c k).outcome s acc = outcomeAfter k acc (step c s) := rfl

theorem outcomeAfter_mk (k : ℤ → Prog) (acc : List ℤ) (r : ℤ) (s : State) :
    outcomeAfter k acc (r, s) = (k r).outcome s (r :: acc) := rfl

theorem outcome_eq (p : Prog) : ∀ (s : State) (acc : List ℤ),
    p.outcome s acc = (acc.reverse ++ (p.exec s).1.map Event.result, (p.exec s).2) := by
  induction p with
  | ret code => intro s acc; simp [Prog.outcome, Prog.exec]
  | call c k ih => intro s acc; simp [Prog.outcome, Prog.exec, ih]

theorem important_numbers_flatten : important_numbers.flatten =
    [binary32 42, binary32 42, binary32 42, binary32 42, binary32 42, binary32 42,
     binary32 42, binary32 42, binary32 (binary64 42.42)] := rfl

theorem content_description_length : content_description.length = 50 := by decide

theorem take_content_description : List.take 50 content_description = content_description :=
  List.take_of_length_le (by rw [content_description_length])

set_option maxHeartbeats 1000000 in
theorem outcome_main (disk : String → Option Node) (n0 : ℕ) :
    main.outcome (State.initial disk n0) [] =
      ([(n0 : ℤ), n0 + 1, n0 + 2, n0 + 3, 0, n0 + 4, n0 + 5, 0, n0 + 6, 0, n0 + 7, 0,
          0, 0, 0, 0, 0, 0, 0, 0],
        0,
        ⟨Function.update disk "solution.h5" (some
          (.group []
            [("important_data",
              .group [⟨"content", .string 50, .scalar, some (.chars content_description)⟩]
                [("my_cool_data",
                  .dataset .float32 (.simple [3, 3] [3, 3]) (some important_numbers.flatten)
                    [⟨"mean", .float32, .scalar, some (.floats [mean])⟩])])])),
         [], n0 + 8⟩) := by
  unfold main
  simp only [State.initial]
  iterate 20
    rw [outcome_call]
    simp [step, State.openHandle, State.fail, State.location, State.lookup, State.modifyObject,
      Node.modify, Node.addLink, updateLink, State.datatype, State.dataspace, dims, max_dims,
      Node.writeData, Dataspace.npoints, Buf.read, Node.addAttr, Node.attrs, Node.setAttrs,
      Node.writeAttr, State.close, Buf.sizeof, add_assoc, important_numbers_flatten,
      content_description_length, take_content_description]
    rw [outcomeAfter_mk]
  simp [Prog.outcome, important_numbers_flatten]

theorem exec_main (disk : String → Option Node) (n0 : ℕ) :
    (main.exec (State.initial disk n0)).1.map Event.result =
      [(n0 : ℤ), n0 + 1, n0 + 2, n0 + 3, 0, n0 + 4, n0 + 5, 0, n0 + 6, 0, n0 + 7, 0,
        0, 0, 0, 0, 0, 0, 0, 0]
    ∧ (main.exec (State.initial disk n0)).2 =
      (0,
        ⟨Function.update disk "solution.h5" (some
          (.group []
            [("important_data",
              .group [⟨"content", .string 50, .scalar, some (.chars content_description)⟩]
                [("my_cool_data",
                  .dataset .float32 (.simple [3, 3] [3, 3]) (some important_numbers.flatten)
                    [⟨"mean", .float32, .scalar, some (.floats [mean])⟩])])])),
         [], n0 + 8⟩) := by
  have h := outcome_main disk n0
  rw [outcome_eq] at h
  simpa using h

theorem exec_main_succeeds (disk : String → Option Node) (n0 : ℕ) :
    ∀ e ∈ (main.exec (State.initial disk n0)).1, 0 ≤ e.result := by
  have h := (exec_main disk n0).1
  intro e he
  have : e.result ∈ (main.exec (State.initial disk n0)).1.map Event.result :=
    List.mem_map_of_mem _ he
  rw [h] at this
  simp only [List.mem_cons, List.mem_singleton, List.not_mem_nil, or_false] at this
  rcases this with h | h | h | h | h | h | h | h | h | h | h | h | h | h | h | h | h | h | h | h <;>
    rw [h] <;> positivity

/-- C1: from any content of the disk and with a fresh library state, every call
`main` of `hdf5-example.c` makes succeeds in the library model, and afterwards
the file `solution.h5` consists of a root group whose only member is the group
`important_data`, whose only member is the dataset `my_cool_data`: element type
native `float`, a simple dataspace of rank 2 with dimensions 3 x 3 and maximum
dimensions 3 x 3, and as stored elements, in row-major order, the nine literals
of the source converted to `float` (eight times 42 and the `float` nearest to
42.42, which is 11120148 / 2 ^ 18).  Whatever `solution.h5` held before is
gone. -/
theorem main_writes_dataset (disk : String → Option Node) (n0 : ℕ) :
    (∀ e ∈ (main.exec (State.initial disk n0)).1, 0 ≤ e.result)
    ∧ (∃ groupAttrs datasetAttrs,
        (main.exec (State.initial disk n0)).2.2.disk "solution.h5" = some
          (.group []
            [("important_data",
              .group groupAttrs
                [("my_cool_data",
                  .dataset .float32 (.simple [3, 3] [3, 3])
                    (some [42, 42, 42, 42, 42, 42, 42, 42, 11120148 / 262144])
                    datasetAttrs)])]))
    ∧ (Dataspace.simple [3, 3] [3, 3]).rank = 2
    ∧ important_numbers_literal.flatten.map (fun q => binary32 (binary64 q))
        = [42, 42, 42, 42, 42, 42, 42, 42, 11120148 / 262144] := by
  have h42 : binary64 42 = 42 := by
    have he : quantumExp 53 (-1022) 42 = -47 := by
      rw [quantumExp_of_pos 53 (-1022) 5 (by norm_num) (by norm_num)]; norm_num
    unfold binary64
    rw [roundBinary_eq (-47) 5910974510923776 (by norm_num) he
      (by rw [show (42 : ℚ) / 2 ^ (-47 : ℤ) = ((5910974510923776 : ℤ) : ℚ) by norm_num,
        roundNE_intCast])]
    norm_num
  refine ⟨exec_main_succeeds disk n0,
    ⟨[⟨"content", .string 50, .scalar, some (.chars content_description)⟩],
      [⟨"mean", .float32, .scalar, some (.floats [mean])⟩], ?_⟩, rfl, ?_⟩
  · rw [(exec_main disk n0).2]
    simp [important_numbers_flatten, binary32_42, binary32_42_42]
  · simp [important_numbers_literal, h42, binary32_42, binary32_42_42]

/-- C2: from any content of the disk and with a fresh library state, after
`main` of `hdf5-example.c` has run against the library model the file
`solution.h5` holds exactly two attributes: `content` on the group
`important_data`, a scalar of the 50-byte string type whose value is the
characters of "Contains a dataset with the answer to everything!" followed by
the terminating NUL, and `mean` on the dataset `important_data/my_cool_data`,
a scalar native `float` whose value is the `float` nearest to 42.05, which is
11023155 / 2 ^ 18.  The root group carries none. -/
theorem main_writes_attributes (disk : String → Option Node) (n0 : ℕ) :
    ∃ root, (main.exec (State.initial disk n0)).2.2.disk "solution.h5" = some root
      ∧ root.attributes [] =
        [(["important_data"],
            ⟨"content", .string 50, .scalar,
              some (.chars ("Contains a dataset with the answer to everything!".toList
                ++ [Char.ofNat 0]))⟩),
         (["important_data", "my_cool_data"],
            ⟨"mean", .float32, .scalar, some (.floats [11023155 / 262144])⟩)]
      ∧ (root.find ["important_data"]).map Node.isGroup = some true
      ∧ (root.find ["important_data", "my_cool_data"]).map Node.isDataset = some true
      ∧ mean = binary32 (binary64 mean_literal) := by
  refine ⟨.group []
      [("important_data",
        .group [⟨"content", .string 50, .scalar, some (.chars content_description)⟩]
          [("my_cool_data",
            .dataset .float32 (.simple [3, 3] [3, 3]) (some important_numbers.flatten)
              [⟨"mean", .float32, .scalar, some (.floats [mean])⟩])])],
    by rw [(exec_main disk n0).2]; simp, ?_, ?_, ?_, rfl⟩
  · simp [Node.attributes, linksAttributes, mean, binary32_42_05, content_description,
      content_literal]
  · simp [Node.find, findLink, Node.isGroup]
  · simp [Node.find, findLink, Node.isDataset]

end Blog.Hdf5

namespace Blog.Hdf5

/-! ## `hdf5-example.c`: the constants -/

/-- C9: the constant 42.05 the program stores as `mean` is the arithmetic mean
of the nine constants of `important_numbers` (their sum is 378.42), rounded to
two decimal places in exact arithmetic, and differs from the exact mean
378.42 / 9. -/
theorem mean_literal_is_rounded_mean :
    important_numbers_literal.flatten.length = 9
    ∧ important_numbers_literal.flatten.sum = 378.42
    ∧ mean_literal = (round (important_numbers_literal.flatten.sum / 9 * 100) : ℚ) / 100
    ∧ mean_literal ≠ important_numbers_literal.flatten.sum / 9 := by
  have hsum : important_numbers_literal.flatten.sum = 378.42 := by
    simp [important_numbers_literal]; norm_num
  have hround : round ((378.42 : ℚ) / 9 * 100) = 4205 := by
    rw [round_eq, Int.floor_eq_iff]
    constructor <;> norm_num
  refine ⟨rfl, hsum, ?_, ?_⟩
  · rw [hsum, hround]; norm_num [mean_literal]
  · rw [hsum]; norm_num [mean_literal]

/-- C10: `sizeof(content_description)` is 50, the 49 characters of the string
literal and the terminating NUL; in every run `main` sets the size of the
copied string type to 50 and passes to `H5Awrite`, with that same type, the
array of exactly 50 bytes; the library's read of one element of a 50-byte
string type from this buffer stays inside the array and takes all of it; and
in the run against the library model both calls succeed and the attribute
`content` holds the whole array, the string and its NUL, untruncated. -/
theorem content_size_matches (results : ℕ → ℤ) (disk : String → Option Node) (n0 : ℕ) :
    (Buf.chars content_description).sizeof = 50
    ∧ content_literal.length = 49
    ∧ content_description = content_literal.toList ++ [Char.ofNat 0]
    ∧ ((main.run results 0).1.map Event.call)[7]? = some (.H5Tset_size (.val (results 6)) 50)
    ∧ ((main.run results 0).1.map Event.call)[9]? =
        some (.H5Awrite (.val (results 8)) (.val (results 6)) (.chars content_description))
    ∧ Buf.read (.string 50) Dataspace.scalar.npoints (.chars content_description) =
        some (.chars content_description)
    ∧ ((main.exec (State.initial disk n0)).1.map Event.result)[7]? = some 0
    ∧ ((main.exec (State.initial disk n0)).1.map Event.result)[9]? = some 0
    ∧ (∃ root, (main.exec (State.initial disk n0)).2.2.disk "solution.h5" = some root
        ∧ (root.find ["important_data"]).map (fun g => g.attrs.map Attribute.value) =
          some [some (.chars content_description)]) := by
  have hsize : (Buf.chars content_description).sizeof = 50 := content_description_length
  refine ⟨hsize, by decide, rfl, ?_, ?_, ?_, ?_, ?_, ?_⟩
  · rw [run_main, hsize]; rfl
  · rw [run_main]; rfl
  · simp [Buf.read, Dataspace.npoints, content_description_length, take_content_description]
  · rw [(exec_main disk n0).1]; rfl
  · rw [(exec_main disk n0).1]; rfl
  · refine ⟨_, by rw [(exec_main disk n0).2]; simp; rfl, ?_⟩
    simp [Node.find, findLink, Node.attrs]

/-- Instance of `main_closes_every_handle`: a library that numbers its answers
0, 1, 2, ... leaves no identifier open. -/
theorem main_closes_every_handle_witness :
    track (main.run (fun i => (i : ℤ)) 0).1 [] = some [] :=
  (main_closes_every_handle (fun i => (i : ℤ)) (by decide) (by decide)).1

end Blog.Hdf5

namespace Blog

/-! ## Loops -/

theorem forInt_inv {σ : Type} (n : ℤ) (body : ℤ → σ → Outcome σ) (P : ℤ → σ → Prop)
    (hn : n ≤ INT_MAX)
    (hstep : ∀ i s, 0 ≤ i → i < n → P i s → ∃ s', body i s = .done s' ∧ P (i + 1) s') :
    ∀ (fuel : ℕ) (i : ℤ) (s : σ), 0 ≤ i → i ≤ n → (n - i).toNat < fuel → P i s →
      ∃ s', forInt n body fuel i s = .done s' ∧ P n s' := by
  intro fuel
  induction fuel with
  | zero => intro i s _ _ hf; omega
  | succ fuel ih =>
    intro i s h0 hle hf hP
    by_cases hlt : i < n
    · obtain ⟨s', hb, hP'⟩ := hstep i s h0 hlt hP
      obtain ⟨s'', hrun, hP''⟩ := ih (i + 1) s' (by omega) (by omega) (by omega) hP'
      refine ⟨s'', ?_, hP''⟩
      rw [forInt, if_pos hlt, hb]
      simp only
      rw [if_pos (by omega), hrun]
    · have hi : i = n := by omega
      refine ⟨s, ?_, hi ▸ hP⟩
      rw [forInt, if_neg hlt]

namespace SimpleMicro

theorem timedLoop_done (sum : ℤ → ℤ → ℤ) (a b : ℤ) (fuel : ℕ) (hfuel : 100000000 < fuel) :
    timedLoop sum a b fuel = .done 100000000 := by
  obtain ⟨s', hrun, hs'⟩ := forInt_inv iterations
    (fun _ (calls : ℕ) => let _r := sum a b; Outcome.done (calls + 1))
    (fun (i : ℤ) (calls : ℕ) => (calls : ℤ) = i)
    (by decide) (fun i s _ _ h => ⟨s + 1, rfl, by push_cast; omega⟩) fuel 0 0 (le_refl 0)
    (by decide) (by simpa [iterations] using hfuel) rfl
  have : s' = 100000000 := by
    have h : (s' : ℤ) = 100000000 := hs'
    omega
  rw [timedLoop, ← this]
  exact hrun

theorem elapsedMicros_done {start stop : ℤ} (h1 : start ≤ stop)
    (h2 : stop - start < 2 ^ 63) :
    elapsedMicros start stop = .done ((stop - start).tdiv 1000) := by
  rw [elapsedMicros, if_pos (by constructor <;> omega)]

/-- C5: for clock readings with `clock 0 ≤ clock 1` and `clock 2 ≤ clock 3`, as
the monotonic clock gives them (nanosecond ticks whose two measured differences
fit the 64-bit representation), `main` of `simple_micro.cpp` terminates with exit code 0 and output exactly the two lines
`sum(1, 2) took D1 microseconds` and `sum(10, 20) took D2 microseconds`, in
this order, where `D1` and `D2` are the differences `clock 1 - clock 0` and
`clock 3 - clock 2` divided by 1000 with truncation; both are non-negative; and
each timed loop makes exactly 100000000 calls of `sum` and ends without the
`int` counter overflowing. -/
theorem main_reports_durations (sum : ℤ → ℤ → ℤ) (clock : ℕ → ℤ) (fuel : ℕ)
    (hfuel : 100000000 < fuel) (h01 : clock 0 ≤ clock 1) (h23 : clock 2 ≤ clock 3)
    (hd1 : clock 1 - clock 0 < 2 ^ 63) (hd2 : clock 3 - clock 2 < 2 ^ 63) :
    main sum clock fuel = .done
        ("sum(1, 2) took " ++ toString ((clock 1 - clock 0).tdiv 1000) ++ " microseconds\n"
          ++ ("sum(10, 20) took " ++ toString ((clock 3 - clock 2).tdiv 1000)
            ++ " microseconds\n"), 0)
    ∧ 0 ≤ (clock 1 - clock 0).tdiv 1000
    ∧ 0 ≤ (clock 3 - clock 2).tdiv 1000
    ∧ timedLoop sum 1 2 fuel = .done 100000000
    ∧ timedLoop sum 10 20 fuel = .done 100000000 := by
  have hrep : ∀ (l : String) (d : ℤ),
      report l d = l ++ toString d ++ " microseconds\n" := by
    intro l d
    rw [report, String.append_assoc (l ++ toString d)]
    rfl
  refine ⟨?_, Int.tdiv_nonneg (by omega) (by norm_num), Int.tdiv_nonneg (by omega) (by norm_num),
    timedLoop_done sum 1 2 fuel hfuel, timedLoop_done sum 10 20 fuel hfuel⟩
  simp only [main, timedLoop_done sum 1 2 fuel hfuel, timedLoop_done sum 10 20 fuel hfuel,
    elapsedMicros_done h01 hd1, elapsedMicros_done h23 hd2, hrep]

/-- Instance of `main_reports_durations`: readings 0 ns, 2500 ns, 3000 ns and
10999 ns give durations of 2 and 7 microseconds. -/
theorem main_reports_durations_witness :
    main (fun a b => a + b) (fun n => if n = 0 then 0 else if n = 1 then 2500
        else if n = 2 then 3000 else 10999) 100000001 = .done
      ("sum(1, 2) took 2 microseconds\nsum(10, 20) took 7 microseconds\n", 0) :=
  (main_reports_durations (fun a b => a + b) (fun n => if n = 0 then 0 else if n = 1 then 2500
        else if n = 2 then 3000 else 10999) 100000001 (by decide) (by decide) (by decide)
        (by decide) (by decide)).1

end SimpleMicro

end Blog

namespace Blog

/-! ## `conditional-vs-fabs.c` -/

namespace CondFabs

theorem conditional_eq_fabs {q : ℚ} (hq : q ≠ 0) : conditional (.num q) = fabs (.num q) := by
  by_cases h : q < 0
  · simp [conditional, fabs, Dbl.ltZero, Dbl.neg, h, hq, abs_of_neg h]
  · simp [conditional, fabs, Dbl.ltZero, h, abs_of_nonneg (not_lt.1 h)]

theorem fabs_idem (x : Dbl) : fabs (fabs x) = fabs x := by
  cases x <;> simp [fabs]

theorem conditional_idem (x : Dbl) : conditional (conditional x) = conditional x := by
  cases x with
  | num q =>
    by_cases h : q < 0
    · have h' : ¬ (-q < 0) := by linarith
      have hq : q ≠ 0 := ne_of_lt h
      simp [conditional, Dbl.ltZero, Dbl.neg, h, hq]
      intro h1
      linarith
    · simp [conditional, Dbl.ltZero, h]
  | negZero => simp [conditional, Dbl.ltZero]
  | inf s => cases s <;> simp [conditional, Dbl.ltZero, Dbl.neg]
  | nan => simp [conditional, Dbl.ltZero]

theorem iterate_idem {f : Dbl → Dbl} (hf : ∀ x, f (f x) = f x) (n : ℕ) (x : Dbl) :
    f^[n + 1] x = f x := by
  induction n with
  | zero => rfl
  | succ n ih => rw [Function.iterate_succ_apply', ih, hf]

theorem formatF_one : formatF (.num 1) = "1.000000" := by
  have h : roundNE (|(1 : ℚ)| * 1000000) = 1000000 := by
    rw [abs_one, one_mul, show (1000000 : ℚ) = ((1000000 : ℤ) : ℚ) by norm_num, roundNE_intCast]
  unfold formatF
  simp only [h]
  decide

theorem loopK_done (f : Dbl → Dbl) (hf : ∀ x, f (f x) = f x) (fuel : ℕ) (hfuel : 1000 < fuel)
    (r : Dbl) : loopK f fuel r = .done (f r) := by
  obtain ⟨s', hrun, hs'⟩ := forInt_inv 1000 (fun _ x => Outcome.done (f x))
    (fun (k : ℤ) (x : Dbl) => (k = 0 ∧ x = r) ∨ (0 < k ∧ x = f r)) (by decide)
    (fun k x _ _ h => ⟨f x, rfl, by
      rcases h with ⟨_, hx⟩ | ⟨_, hx⟩
      · exact Or.inr ⟨by omega, by rw [hx]⟩
      · exact Or.inr ⟨by omega, by rw [hx, hf]⟩⟩)
    fuel 0 r (le_refl 0) (by decide) (by simpa using hfuel) (Or.inl ⟨rfl, rfl⟩)
  rcases hs' with ⟨h, _⟩ | ⟨_, hx⟩
  · omega
  · rw [loopK, hrun, hx]

theorem loopJ_done (f : Dbl → Dbl) (hf : ∀ x, f (f x) = f x) (h1 : f (.num 1) = .num 1)
    (h2 : f (.num (-1)) = .num 1) (fuel : ℕ) (hfuel : 1000 < fuel) (r : Dbl) :
    loopJ f fuel r = .done (.num 1) := by
  obtain ⟨s', hrun, hs'⟩ := forInt_inv 1000
    (fun j (_ : Dbl) => loopK f fuel (if j.tmod 2 ≠ 0 then .num 1 else .num (-1)))
    (fun (j : ℤ) (x : Dbl) => 0 < j → x = .num 1) (by decide)
    (fun j x _ _ _ => ⟨.num 1, by
      show loopK f fuel (if j.tmod 2 ≠ 0 then .num 1 else .num (-1)) = _
      rw [loopK_done f hf fuel hfuel]
      split_ifs
      · rw [h1]
      · rw [h2], fun _ => rfl⟩)
    fuel 0 r (le_refl 0) (by decide) (by simpa using hfuel) (fun h => absurd h (lt_irrefl 0))
  rw [loopJ, hrun, hs' (by decide)]

theorem loopI_done (f : Dbl → Dbl) (hf : ∀ x, f (f x) = f x) (h1 : f (.num 1) = .num 1)
    (h2 : f (.num (-1)) = .num 1) (fuel : ℕ) (hfuel : 1000 < fuel) (r : Dbl) :
    loopI f fuel r = .done (.num 1) := by
  obtain ⟨s', hrun, hs'⟩ := forInt_inv 1000 (fun _ (x : Dbl) => loopJ f fuel x)
    (fun (i : ℤ) (x : Dbl) => 0 < i → x = .num 1) (by decide)
    (fun i x _ _ _ => ⟨.num 1, loopJ_done f hf h1 h2 fuel hfuel x, fun _ => rfl⟩)
    fuel 0 r (le_refl 0) (by decide) (by simpa using hfuel) (fun h => absurd h (lt_irrefl 0))
  rw [loopI, hrun, hs' (by decide)]

theorem mainWith_done (f : Dbl → Dbl) (hf : ∀ x, f (f x) = f x) (h1 : f (.num 1) = .num 1)
    (h2 : f (.num (-1)) = .num 1) (fuel : ℕ) (hfuel : 1000 < fuel) (r : Dbl) :
    mainWith f r fuel = .done (.num 1, "1.000000\n", 0) := by
  rw [mainWith, loopI_done f hf h1 h2 fuel hfuel]
  simp only [formatF_one]
  rfl

/-- C8: in `conditional-vs-fabs.c` the conditional expression of the
commented-out line and the call of `fabs` agree on 1.0 and on -1.0 (both give
1.0) and on every non-zero number; applying either of them 1000 times gives
the same as applying it once; and with either of them, whatever the
indeterminate initial value of `residuum`, the three nested loops of 1000
passes terminate with `residuum` equal to 1.0, the program prints `1.000000`
followed by a newline, and returns 0. -/
theorem conditional_and_fabs_agree (initial : Dbl) (fuel : ℕ) (hfuel : 1000 < fuel) :
    conditional (.num 1) = .num 1 ∧ fabs (.num 1) = .num 1
    ∧ conditional (.num (-1)) = .num 1 ∧ fabs (.num (-1)) = .num 1
    ∧ (∀ q : ℚ, q ≠ 0 → conditional (.num q) = fabs (.num q))
    ∧ (∀ x, conditional^[1000] x = conditional x)
    ∧ (∀ x, fabs^[1000] x = fabs x)
    ∧ main initial fuel = .done (.num 1, "1.000000\n", 0)
    ∧ mainConditional initial fuel = .done (.num 1, "1.000000\n", 0) := by
  have c1 : conditional (.num 1) = .num 1 := by simp [conditional, Dbl.ltZero]
  have f1 : fabs (.num 1) = .num 1 := by simp [fabs]
  have c2 : conditional (.num (-1)) = .num 1 := by simp [conditional, Dbl.ltZero, Dbl.neg]
  have f2 : fabs (.num (-1)) = .num 1 := by simp [fabs]
  exact ⟨c1, f1, c2, f2, fun q hq => conditional_eq_fabs hq,
    fun x => iterate_idem conditional_idem 999 x, fun x => iterate_idem fabs_idem 999 x,
    mainWith_done fabs fabs_idem f1 f2 fuel hfuel initial,
    mainWith_done conditional conditional_idem c1 c2 fuel hfuel initial⟩

/-- Instance of `conditional_and_fabs_agree`: started with `residuum` holding a
NaN, the program as it stands prints `1.000000`. -/
theorem conditional_and_fabs_agree_witness :
    main .nan 1001 = .done (.num 1, "1.000000\n", 0) :=
  (conditional_and_fabs_agree .nan 1001 (by decide)).2.2.2.2.2.2.2.1

end CondFabs

end Blog

namespace Blog

/-! ## `monte_carlo.cpp` -/

theorem binary64_natCast {n : ℕ} (hn : n < 2 ^ 53) : binary64 (n : ℚ) = n := by
  rcases Nat.eq_zero_or_pos n with h0 | hpos
  · subst h0; simp [binary64, roundBinary]
  have hq : (0 : ℚ) < n := by exact_mod_cast hpos
  have hne : (n : ℚ) ≠ 0 := ne_of_gt hq
  have hl0 : 0 ≤ Int.log 2 (n : ℚ) := by rw [Int.log_natCast]; positivity
  have hl1 : Int.log 2 (n : ℚ) < 53 :=
    (Int.lt_zpow_iff_log_lt (by norm_num) hq).1 (by exact_mod_cast hn)
  obtain ⟨k, hk⟩ : ∃ k : ℕ, (k : ℤ) = 52 - Int.log 2 (n : ℚ) :=
    ⟨(52 - Int.log 2 (n : ℚ)).toNat, by omega⟩
  have he : quantumExp 53 (-1022) (n : ℚ) = -(k : ℤ) := by
    rw [quantumExp, abs_of_pos hq, hk]
    push_cast
    rw [max_eq_left (by omega)]
    ring
  have hpow : (2 : ℚ) ^ (-(k : ℤ)) = ((2 : ℚ) ^ k)⁻¹ := by rw [zpow_neg, zpow_natCast]
  have hm : roundNE ((n : ℚ) / 2 ^ (-(k : ℤ))) = (n * 2 ^ k : ℕ) := by
    rw [hpow, div_inv_eq_mul,
      show (n : ℚ) * 2 ^ k = (((n * 2 ^ k : ℕ) : ℤ) : ℚ) by push_cast; ring, roundNE_intCast]
  unfold binary64
  rw [roundBinary_eq (-(k : ℤ)) ((n * 2 ^ k : ℕ) : ℤ) hne he hm, hpow]
  push_cast
  field_simp

namespace MonteCarlo

/-- The program's test admits points outside the unit circle by less than the
rounding error: for `x = -1` and `y = 2 ^ (-30)` the exact sum of squares
exceeds 1, the sum computed in `double` is 1. -/
theorem insideCircle_rounds : insideCircle (-1) (1 / 2 ^ 30)
    ∧ (1 : ℚ) < (-1) * (-1) + 1 / 2 ^ 30 * (1 / 2 ^ 30) := by
  have h1 : binary64 ((-1 : ℚ) * (-1)) = 1 := by
    have := binary64_natCast (n := 1) (by norm_num)
    simpa using this
  have h2 : binary64 ((1 : ℚ) / 2 ^ 30 * (1 / 2 ^ 30)) = 1 / 2 ^ 60 := by
    have he : quantumExp 53 (-1022) ((1 : ℚ) / 2 ^ 30 * (1 / 2 ^ 30)) = -112 := by
      rw [quantumExp_of_pos 53 (-1022) (-60) (by norm_num) (by norm_num)]; norm_num
    unfold binary64
    rw [roundBinary_eq (-112) 4503599627370496 (by norm_num) he
      (by rw [show (1 : ℚ) / 2 ^ 30 * (1 / 2 ^ 30) / 2 ^ (-112 : ℤ)
        = ((4503599627370496 : ℤ) : ℚ) by norm_num, roundNE_intCast])]
    norm_num
  have h3 : binary64 ((1 : ℚ) + 1 / 2 ^ 60) = 1 := by
    have he : quantumExp 53 (-1022) ((1 : ℚ) + 1 / 2 ^ 60) = -52 := by
      rw [quantumExp_of_pos 53 (-1022) 0 (by norm_num) (by norm_num)]; norm_num
    unfold binary64
    rw [roundBinary_eq (-52) 4503599627370496 (by norm_num) he
      (roundNE_eq (by norm_num) (by norm_num))]
    norm_num
  refine ⟨?_, by norm_num⟩
  unfold insideCircle
  rw [h1, h2, h3]

end MonteCarlo

end Blog
